import Mathlib

/-!
# Verification of the `absolute-time` browser extension core

Shallow embedding of the repository's two core modules:

* `src/scripts/sharedSettings.js` — settings defaults and coercion
  (`getDefaultSettings`, `coerceSettings`);
* `src/scripts/content.js` (the settings-aware content-script variant) —
  the Live Formatter: per-element attribute formatting
  (`applyBaseFormatting`, `applyYearFormatting`, `applyTimeFormatting`,
  `formatSingleElement`), the full pass (`formatRelativeTimes`,
  `unformatRelativeTimes`), route predicates (`isIgnoredRoute`,
  `isActionPage`) and the settings-change handler
  (`handleSettingsChange`).

A DOM element is modelled by its attribute list (name/value pairs in
document order); a document is modelled by the list of its
`relative-time` elements in document order, since every selector used by
the pass (`"relative-time"`, `'relative-time[data-formatted="true"]'`)
targets exactly those elements and the pass reads or writes nothing
else.  Browser `Date` semantics are modelled in the environment:
`parseYear s` is `new Date(s).getFullYear()` for a string (`none` models
`NaN`, i.e. an Invalid Date), and `nullYear` is
`new Date(null).getFullYear()` (the Unix epoch, 1970 in UTC), since
`getAttribute` returns `null` for an absent attribute and `null` coerces
to the numeric time value `0`.
-/

namespace AbsoluteTime

/-! ## DOM attribute model -/

/-- The attribute list of a DOM element, in document order. -/
abbrev Attrs := List (String × String)

/-- `element.getAttribute(n)`: the value of the first (in a real DOM,
only) attribute named `n`, or `none` (JS `null`) when absent. -/
def getAttribute : Attrs → String → Option String
  | [], _ => none
  | p :: t, n => if p.1 = n then some p.2 else getAttribute t n

/-- `element.setAttribute(n, v)`: replace the value of the attribute
named `n` in place, or append the attribute if absent. -/
def setAttribute : Attrs → String → String → Attrs
  | [], n, v => [(n, v)]
  | p :: t, n, v => if p.1 = n then (n, v) :: t else p :: setAttribute t n v

/-- `element.removeAttribute(n)`: drop the attribute named `n`. -/
def removeAttribute : Attrs → String → Attrs
  | [], _ => []
  | p :: t, n => if p.1 = n then removeAttribute t n else p :: removeAttribute t n


/-! ## Settings store (`src/scripts/sharedSettings.js`) -/

/-- The canonical settings shape produced by `coerceSettings`.  The
enum-valued fields keep the source's string representation. -/
structure Settings where
  enabled : Bool
  debug : Bool
  dateStyle : String
  showWeekday : String
  showTime : String
  includeSeconds : Bool
deriving DecidableEq, Repr

/-- `getDefaultSettings()` from `sharedSettings.js`. -/
def getDefaultSettings : Settings :=
  { enabled := true
    debug := false
    dateStyle := "short"
    showWeekday := "olderYears"
    showTime := "actionsOnly"
    includeSeconds := false }

/-- An untrusted JavaScript value as it may appear in a stored
settings field. -/
inductive JSVal where
  | str (s : String)
  | boolean (b : Bool)
  | num (n : Int)
  | null
  | undef
deriving DecidableEq, Repr

/-- JavaScript truthiness (`Boolean(v)`); the empty string, `false`,
`0`, `null` and `undefined` are falsy. -/
def truthy : JSVal → Bool
  | .str s => !(s = "")
  | .boolean b => b
  | .num n => !(n = 0)
  | .null => false
  | .undef => false

/-- An untrusted partial settings object: a field is `none` when the key
is absent, `some v` when the key is present with value `v` (a present
key may still hold `undefined`, as `Object.assign` copies those too). -/
structure PartialSettings where
  enabled : Option JSVal
  debug : Option JSVal
  dateStyle : Option JSVal
  showWeekday : Option JSVal
  showTime : Option JSVal
  includeSeconds : Option JSVal
deriving DecidableEq, Repr

/-- The partial-settings object with no keys (`{}`). -/
def emptyPartial : PartialSettings :=
  ⟨none, none, none, none, none, none⟩

/-- `allowed.includes(v)` followed by the per-field fallback in
`coerceSettings`: a field value survives only when it is (strictly
equal to) one of the allowed enum strings, otherwise the default is
restored.  JS `includes` uses strict equality, so a non-string value
never matches. -/
def clampEnum (v : JSVal) (allowed : List String) (dflt : String) : String :=
  match v with
  | .str s => if allowed.contains s then s else dflt
  | _ => dflt

def dateStyles : List String := ["short", "medium", "long"]

def weekdayPolicies : List String := ["never", "olderYears", "always"]

def timePolicies : List String := ["never", "actionsOnly", "always"]

/-- `coerceSettings(partial)` from `sharedSettings.js`: merge the input
over the defaults (`Object.assign({}, defaults, partial || {})`, so
`none` input behaves as `{}`), clamp each enum field to its closed set,
and coerce the boolean fields via truthiness. -/
def coerceSettings (input : Option PartialSettings) : Settings :=
  let p := input.getD emptyPartial
  let d := getDefaultSettings
  { enabled := truthy (p.enabled.getD (.boolean d.enabled))
    debug := truthy (p.debug.getD (.boolean d.debug))
    dateStyle := clampEnum (p.dateStyle.getD (.str d.dateStyle)) dateStyles d.dateStyle
    showWeekday :=
      clampEnum (p.showWeekday.getD (.str d.showWeekday)) weekdayPolicies d.showWeekday
    showTime := clampEnum (p.showTime.getD (.str d.showTime)) timePolicies d.showTime
    includeSeconds := truthy (p.includeSeconds.getD (.boolean d.includeSeconds)) }

/-- A settings value is valid when every enum field lies in its closed
set (boolean fields are trivially valid). -/
def validSettings (s : Settings) : Bool :=
  dateStyles.contains s.dateStyle &&
    weekdayPolicies.contains s.showWeekday &&
    timePolicies.contains s.showTime

/-! ## Live Formatter (`src/scripts/content.js`, settings-aware variant) -/

/-- The browser-supplied environment of a pass: the page path and the
`Date` semantics (see the module comment). -/
structure Env where
  pathname : String
  currentYear : Int
  nullYear : Int
  parseYear : String → Option Int

/-- `String.prototype.includes`: substring containment. -/
def charsStartWith : List Char → List Char → Bool
  | [], _ => true
  | _ :: _, [] => false
  | c :: cs, d :: ds => c = d && charsStartWith cs ds

/-- Helper for `jsIncludes`: does the pattern occur at any position? -/
def charsContain (pat : List Char) : List Char → Bool
  | [] => charsStartWith pat []
  | c :: cs => charsStartWith pat (c :: cs) || charsContain pat cs

/-- `s.includes(pat)` on strings. -/
def jsIncludes (s pat : String) : Bool :=
  charsContain pat.toList s.toList

/-- `ignoredRoutes` from `content.js`. -/
def ignoredRoutes : List String := ["/issues", "/discussions"]

/-- `isIgnoredRoute()`: the current path contains an ignored route
pattern. -/
def isIgnoredRoute (env : Env) : Bool :=
  ignoredRoutes.any (fun route => jsIncludes env.pathname route)

/-- `isActionPage()`: the current path contains `"/actions"`. -/
def isActionPage (env : Env) : Bool :=
  jsIncludes env.pathname "/actions"

/-- An element is its attribute list (see the module comment). -/
abbrev Elem := Attrs

/-- `getElementYear`: `new Date(el.getAttribute("datetime")).getFullYear()`.
An absent attribute yields `null`, which the `Date` constructor coerces
to the epoch (`env.nullYear`); a string is parsed by the browser
(`env.parseYear`, `none` = `NaN`). -/
def getElementYear (env : Env) (el : Elem) : Option Int :=
  match getAttribute el "datetime" with
  | none => some env.nullYear
  | some s => env.parseYear s

/-- JS `<` on a possibly-NaN left operand: `NaN < y` is `false`. -/
def ltJS : Option Int → Int → Bool
  | none, _ => false
  | some a, b => decide (a < b)

/-- JS `x || dflt` for strings: the empty string is falsy. -/
def jsOrDefault (s dflt : String) : String :=
  if s = "" then dflt else s

/-- `applyBaseFormatting`: set `format`, `format-style`
(`currentSettings?.dateStyle || "short"`) and the `data-formatted`
marker, in source order. -/
def applyBaseFormatting (s : Settings) (el : Elem) : Elem :=
  setAttribute
    (setAttribute (setAttribute el "format" "datetime")
      "format-style" (jsOrDefault s.dateStyle "short"))
    "data-formatted" "true"

/-- The weekday policy actually used:
`currentSettings?.showWeekday || "olderYears"`. -/
def weekdayPolicy (s : Settings) : String :=
  jsOrDefault s.showWeekday "olderYears"

/-- `shouldShowWeekday` from `applyYearFormatting`:
`policy === "always" || (policy === "olderYears" && elementYear < currentYear)`. -/
def shouldShowWeekday (env : Env) (s : Settings) (el : Elem) : Bool :=
  weekdayPolicy s = "always" ||
    (weekdayPolicy s = "olderYears" && ltJS (getElementYear env el) env.currentYear)

/-- `applyYearFormatting`: add or remove the `weekday` marker. -/
def applyYearFormatting (env : Env) (s : Settings) (el : Elem) : Elem :=
  if shouldShowWeekday env s el then setAttribute el "weekday" "narrow"
  else removeAttribute el "weekday"

/-- The time policy actually used:
`currentSettings?.showTime || "actionsOnly"`. -/
def timePolicy (s : Settings) : String :=
  jsOrDefault s.showTime "actionsOnly"

/-- `shouldShowTime` from `applyTimeFormatting`:
`policy === "always" || (policy === "actionsOnly" && isActionPage())`. -/
def shouldShowTime (env : Env) (s : Settings) : Bool :=
  timePolicy s = "always" || (timePolicy s = "actionsOnly" && isActionPage env)

/-- `applyTimeFormatting`: set `hour`/`minute` (and `second` when
`includeSeconds`, removing it otherwise) when time is shown, else
remove all three, in source order. -/
def applyTimeFormatting (env : Env) (s : Settings) (el : Elem) : Elem :=
  if shouldShowTime env s then
    if s.includeSeconds then
      setAttribute (setAttribute (setAttribute el "hour" "2-digit")
        "minute" "2-digit") "second" "2-digit"
    else
      removeAttribute (setAttribute (setAttribute el "hour" "2-digit")
        "minute" "2-digit") "second"
  else
    removeAttribute (removeAttribute (removeAttribute el "hour") "minute") "second"

/-- `formatSingleElement`: the three formatting stages folded over the
element in source order (base, year, time). -/
def formatSingleElement (env : Env) (s : Settings) (el : Elem) : Elem :=
  applyTimeFormatting env s (applyYearFormatting env s (applyBaseFormatting s el))

/-- `attributesToRemove` from `unformatRelativeTimes`: every attribute
the Formatter owns, in source order. -/
def formatterAttrs : List String :=
  ["format", "format-style", "weekday", "hour", "minute", "second", "data-formatted"]

/-- Strip the Formatter-owned attributes from one element
(`attributesToRemove.forEach(attr => el.removeAttribute(attr))`). -/
def stripFormatting (el : Elem) : Elem :=
  formatterAttrs.foldl removeAttribute el

/-- The selector `'relative-time[data-formatted="true"]'` (and the
negation of `needsFormatting`): the marker attribute equals `"true"`. -/
def isFormatted (el : Elem) : Bool :=
  getAttribute el "data-formatted" = some "true"

/-- A document, modelled by its `relative-time` elements in document
order. -/
abbrev Doc := List Elem

/-- `unformatRelativeTimes`: strip every element matching the formatted
selector and return the stripped document with the number reverted. -/
def unformatRelativeTimes (doc : Doc) : Doc × Nat :=
  (doc.map (fun el => if isFormatted el then stripFormatting el else el),
   (doc.filter (fun el => isFormatted el)).length)

/-- `formatRelativeTimes(enabled)`: revert everything when disabled;
skip ignored routes; otherwise reformat every `relative-time` element
(unfiltered) and return the count processed. -/
def formatRelativeTimes (env : Env) (s : Settings) (doc : Doc) : Doc × Nat :=
  if !s.enabled then unformatRelativeTimes doc
  else if isIgnoredRoute env then (doc, 0)
  else (doc.map (fun el => formatSingleElement env s el), doc.length)

/-- A settings delta as delivered by the `chrome.storage.onChanged`
listener: the new value of each changed key (values in storage are
written by the settings UI, hence already of the canonical field
types). -/
structure SettingsPatch where
  enabled : Option Bool
  debug : Option Bool
  dateStyle : Option String
  showWeekday : Option String
  showTime : Option String
  includeSeconds : Option Bool
deriving DecidableEq, Repr

/-- `updateSettings(currentSettings, updates)`: object spread, i.e.
every patched field replaces the current one. -/
def updateSettings (s : Settings) (p : SettingsPatch) : Settings :=
  { enabled := p.enabled.getD s.enabled
    debug := p.debug.getD s.debug
    dateStyle := p.dateStyle.getD s.dateStyle
    showWeekday := p.showWeekday.getD s.showWeekday
    showTime := p.showTime.getD s.showTime
    includeSeconds := p.includeSeconds.getD s.includeSeconds }

/-- `handleSettingsChange`: replace the snapshot via `updateSettings`,
then immediately (synchronously, not through the debouncer) run a full
pass with the new snapshot (`formatWithCurrentSettings()` reads the
just-replaced `settings`). -/
def handleSettingsChange (env : Env) (s : Settings) (p : SettingsPatch) (doc : Doc) :
    Settings × (Doc × Nat) :=
  let s2 := updateSettings s p
  (s2, formatRelativeTimes env s2 doc)

/-- The attribute state of a document: the value of attribute `m` on
the `i`-th timestamp element (when it exists). -/
def attrState (doc : Doc) (i : Nat) (m : String) : Option String :=
  match doc[i]? with
  | some el => getAttribute el m
  | none => none

/-! ## Claims -/

/-- Sample environment: a non-excluded, non-actions page. -/
def commitsEnv : Env :=
  { pathname := "/org/repo/commits"
    currentYear := 2026
    nullYear := 1970
    parseYear := fun s =>
      if s = "2026-04-01T12:00:00Z" then some 2026
      else if s = "2025-04-01T12:00:00Z" then some 2025
      else none }

/-- Sample environment: a workflow/actions page. -/
def actionsEnv : Env :=
  { commitsEnv with pathname := "/org/repo/actions/runs/1" }

/-- Sample environment: an excluded (issues) route. -/
def issuesEnv : Env :=
  { commitsEnv with pathname := "/org/repo/issues" }

/-- Default settings with the master switch off. -/
def disabledSettings : Settings :=
  { getDefaultSettings with enabled := false }

/-- A previously formatted element. -/
def formattedElem : Elem :=
  [("datetime", "2025-04-01T12:00:00Z"), ("data-formatted", "true"),
   ("format", "datetime"), ("format-style", "short"), ("weekday", "narrow")]

/-- A never-formatted element. -/
def plainElem : Elem :=
  [("datetime", "2026-04-01T12:00:00Z"), ("class", "commit-time")]


/-- The storage delta produced by flipping the master switch off. -/
def disablePatch : SettingsPatch :=
  ⟨some false, none, none, none, none, none⟩



/-- An element with no `datetime` attribute at all. -/
def noDatetimeElem : Elem := [("class", "commit-time")]

theorem getAttribute_setAttribute (as : Attrs) (n v m : String) :
    getAttribute (setAttribute as n v) m =
      if m = n then some v else getAttribute as m := by
  induction as with
  | nil =>
    by_cases h : m = n
    · subst h; simp [setAttribute, getAttribute]
    · have h' : ¬n = m := fun e => h e.symm
      simp [setAttribute, getAttribute, h, h']
  | cons p t ih =>
    by_cases hpn : p.1 = n
    · by_cases hmn : m = n
      · subst hmn; simp [setAttribute, getAttribute, hpn]
      · have hnm : ¬n = m := fun e => hmn e.symm
        have hpm : ¬p.1 = m := fun e => hmn (e.symm.trans hpn)
        simp [setAttribute, getAttribute, hpn, hmn, hnm, hpm]
    · by_cases hpm : p.1 = m
      · have hmn : ¬m = n := fun e => hpn (hpm.trans e)
        simp [setAttribute, getAttribute, hpn, hpm, hmn]
      · simp [setAttribute, getAttribute, hpn, hpm, ih]

theorem getAttribute_removeAttribute (as : Attrs) (n m : String) :
    getAttribute (removeAttribute as n) m =
      if m = n then none else getAttribute as m := by
  induction as with
  | nil => simp [removeAttribute, getAttribute]
  | cons p t ih =>
    by_cases hpn : p.1 = n
    · by_cases hmn : m = n
      · subst hmn; simp [removeAttribute, getAttribute, hpn, ih]
      · have hpm : ¬p.1 = m := fun e => hmn (e.symm.trans hpn)
        have hnm : ¬n = m := fun e => hmn e.symm
        simp [removeAttribute, getAttribute, hpn, hmn, hpm, hnm, ih]
    · by_cases hpm : p.1 = m
      · have hmn : ¬m = n := fun e => hpn (hpm.trans e)
        simp [removeAttribute, getAttribute, hpn, hpm, hmn]
      · simp [removeAttribute, getAttribute, hpn, hpm, ih]

/-- `removeAttribute` only ever drops entries: the result is a sublist
of the input. -/
theorem removeAttribute_sublist (as : Attrs) (n : String) :
    (removeAttribute as n).Sublist as := by
  induction as with
  | nil => simp [removeAttribute]
  | cons p t ih =>
    by_cases hpn : p.1 = n <;> simp [removeAttribute, hpn]
    · exact ih.cons p
    · exact ih

/-! ## Attribute-level characterization of the formatting stages -/

theorem getAttr_applyBase (s : Settings) (el : Elem) (m : String) :
    getAttribute (applyBaseFormatting s el) m =
      if m = "data-formatted" then some "true"
      else if m = "format-style" then some (jsOrDefault s.dateStyle "short")
      else if m = "format" then some "datetime"
      else getAttribute el m := by
  simp only [applyBaseFormatting, getAttribute_setAttribute]

theorem getAttr_applyYear (env : Env) (s : Settings) (el : Elem) (m : String) :
    getAttribute (applyYearFormatting env s el) m =
      if m = "weekday" then
        (if shouldShowWeekday env s el then some "narrow" else none)
      else getAttribute el m := by
  by_cases h : shouldShowWeekday env s el <;>
    simp only [applyYearFormatting, h, if_true, if_false,
      getAttribute_setAttribute, getAttribute_removeAttribute, Bool.false_eq_true,
      ite_false, ite_true]

theorem getAttr_applyTime (env : Env) (s : Settings) (el : Elem) (m : String) :
    getAttribute (applyTimeFormatting env s el) m =
      if m = "hour" then (if shouldShowTime env s then some "2-digit" else none)
      else if m = "minute" then (if shouldShowTime env s then some "2-digit" else none)
      else if m = "second" then
        (if shouldShowTime env s && s.includeSeconds then some "2-digit" else none)
      else getAttribute el m := by
  by_cases ht : shouldShowTime env s <;> by_cases hs : s.includeSeconds <;>
    simp only [applyTimeFormatting, ht, hs, Bool.true_and, Bool.false_and,
      if_true, if_false, Bool.false_eq_true, ite_false, ite_true,
      getAttribute_setAttribute, getAttribute_removeAttribute] <;>
    split_ifs <;> simp_all

theorem getElementYear_applyBase (env : Env) (s : Settings) (el : Elem) :
    getElementYear env (applyBaseFormatting s el) = getElementYear env el := by
  simp [getElementYear, getAttr_applyBase]

theorem shouldShowWeekday_applyBase (env : Env) (s : Settings) (el : Elem) :
    shouldShowWeekday env s (applyBaseFormatting s el) = shouldShowWeekday env s el := by
  simp [shouldShowWeekday, getElementYear_applyBase]

/-- What `formatSingleElement` leaves on every attribute: the
Formatter-owned attributes get their recomputed values (functions of
the settings, the route, and the element's `datetime` only), every
other attribute is untouched. -/
theorem getAttr_formatSingle (env : Env) (s : Settings) (el : Elem) (m : String) :
    getAttribute (formatSingleElement env s el) m =
      if m = "hour" then (if shouldShowTime env s then some "2-digit" else none)
      else if m = "minute" then (if shouldShowTime env s then some "2-digit" else none)
      else if m = "second" then
        (if shouldShowTime env s && s.includeSeconds then some "2-digit" else none)
      else if m = "weekday" then
        (if shouldShowWeekday env s el then some "narrow" else none)
      else if m = "data-formatted" then some "true"
      else if m = "format-style" then some (jsOrDefault s.dateStyle "short")
      else if m = "format" then some "datetime"
      else getAttribute el m := by
  rw [formatSingleElement, getAttr_applyTime, getAttr_applyYear, getAttr_applyBase,
    shouldShowWeekday_applyBase]

theorem getAttr_formatSingle_datetime (env : Env) (s : Settings) (el : Elem) :
    getAttribute (formatSingleElement env s el) "datetime" =
      getAttribute el "datetime" := by
  simp [getAttr_formatSingle]

theorem shouldShowWeekday_formatSingle (env : Env) (s : Settings) (el : Elem) :
    shouldShowWeekday env s (formatSingleElement env s el) =
      shouldShowWeekday env s el := by
  simp [shouldShowWeekday, getElementYear, getAttr_formatSingle_datetime]

/-- Reformatting an already formatted element changes nothing: the
per-element step is idempotent on every attribute. -/
theorem formatSingle_idem_attr (env : Env) (s : Settings) (el : Elem) (m : String) :
    getAttribute (formatSingleElement env s (formatSingleElement env s el)) m =
      getAttribute (formatSingleElement env s el) m := by
  rw [getAttr_formatSingle, getAttr_formatSingle, shouldShowWeekday_formatSingle]
  split_ifs <;> rfl

/-! ## Stripping lemmas -/

theorem removeAttribute_of_absent (as : Attrs) (n : String)
    (h : getAttribute as n = none) : removeAttribute as n = as := by
  induction as with
  | nil => rfl
  | cons p t ih =>
    by_cases hpn : p.1 = n
    · simp [getAttribute, hpn] at h
    · simp [getAttribute, hpn] at h
      simp [removeAttribute, hpn, ih h]

theorem removeAttribute_setAttribute_same (as : Attrs) (k v : String) :
    removeAttribute (setAttribute as k v) k = removeAttribute as k := by
  induction as with
  | nil => simp [setAttribute, removeAttribute]
  | cons p t ih =>
    by_cases hpk : p.1 = k <;> simp [setAttribute, removeAttribute, hpk, ih]

theorem removeAttribute_setAttribute_comm (as : Attrs) (a k v : String)
    (h : ¬a = k) : removeAttribute (setAttribute as k v) a =
      setAttribute (removeAttribute as a) k v := by
  have hka : ¬k = a := fun e => h e.symm
  induction as with
  | nil => simp [setAttribute, removeAttribute, hka]
  | cons p t ih =>
    by_cases hpk : p.1 = k
    · have hpa : ¬p.1 = a := fun e => h (e.symm.trans hpk)
      simp [setAttribute, removeAttribute, hpk, hpa, hka]
    · by_cases hpa : p.1 = a <;>
        simp [setAttribute, removeAttribute, hpk, hpa, h, hka, ih]

theorem removeAttribute_removeAttribute_comm (as : Attrs) (a b : String) :
    removeAttribute (removeAttribute as b) a =
      removeAttribute (removeAttribute as a) b := by
  induction as with
  | nil => rfl
  | cons p t ih =>
    by_cases hpa : p.1 = a
    · by_cases hpb : p.1 = b
      · have hab : a = b := hpa.symm.trans hpb
        subst hab; rfl
      · have hab : ¬a = b := fun e => hpb (hpa.trans e)
        have hba : ¬b = a := fun e => hab e.symm
        simp [removeAttribute, hpa, hpb, hab, hba, ih]
    · by_cases hpb : p.1 = b
      · have hab : ¬a = b := fun e => hpa (e ▸ hpb)
        have hba : ¬b = a := fun e => hab e.symm
        simp [removeAttribute, hpa, hpb, hab, hba, ih]
      · simp [removeAttribute, hpa, hpb, ih]

/-- Removing a list of attributes absorbs a prior `setAttribute` of any
listed name. -/
theorem foldl_removeAttribute_setAttribute (L : List String) (as : Attrs)
    (k v : String) (h : k ∈ L) :
    L.foldl removeAttribute (setAttribute as k v) = L.foldl removeAttribute as := by
  induction L generalizing as with
  | nil => cases h
  | cons a L ih =>
    by_cases hak : a = k
    · subst hak
      simp [List.foldl, removeAttribute_setAttribute_same]
    · have hk : k ∈ L := by
        cases h with
        | head => exact absurd rfl hak
        | tail _ h' => exact h'
      simp only [List.foldl]
      rw [removeAttribute_setAttribute_comm as a k v hak, ih (removeAttribute as a) hk]

/-- Removing a list of attributes absorbs a prior `removeAttribute` of
any listed name. -/
theorem foldl_removeAttribute_removeAttribute (L : List String) (as : Attrs)
    (k : String) (h : k ∈ L) :
    L.foldl removeAttribute (removeAttribute as k) = L.foldl removeAttribute as := by
  induction L generalizing as with
  | nil => cases h
  | cons a L ih =>
    by_cases hak : a = k
    · subst hak
      simp only [List.foldl]
      rw [removeAttribute_removeAttribute_comm]
      have : removeAttribute (removeAttribute as a) a =
          removeAttribute as a := by
        apply removeAttribute_of_absent
        simp [getAttribute_removeAttribute]
      rw [this]
    · have hk : k ∈ L := by
        cases h with
        | head => exact absurd rfl hak
        | tail _ h' => exact h'
      simp only [List.foldl]
      rw [removeAttribute_removeAttribute_comm as a k, ih (removeAttribute as a) hk]

theorem foldl_removeAttribute_of_absent (L : List String) (as : Attrs)
    (h : ∀ a ∈ L, getAttribute as a = none) :
    L.foldl removeAttribute as = as := by
  induction L with
  | nil => rfl
  | cons a L ih =>
    simp only [List.foldl]
    rw [removeAttribute_of_absent as a (h a (List.mem_cons_self a L))]
    exact ih (fun b hb => h b (List.mem_cons_of_mem a hb))

theorem foldl_removeAttribute_sublist (L : List String) (as : Attrs) :
    (L.foldl removeAttribute as).Sublist as := by
  induction L generalizing as with
  | nil => exact List.Sublist.refl as
  | cons a L ih =>
    exact (ih (removeAttribute as a)).trans (removeAttribute_sublist as a)

theorem getAttr_strip_owned (el : Elem) (m : String) (h : m ∈ formatterAttrs) :
    getAttribute (stripFormatting el) m = none := by
  simp only [formatterAttrs, List.mem_cons, List.not_mem_nil, or_false] at h
  rcases h with rfl | rfl | rfl | rfl | rfl | rfl | rfl <;>
    simp [stripFormatting, formatterAttrs, List.foldl, getAttribute_removeAttribute]

theorem getAttr_strip_other (el : Elem) (m : String) (h : ¬m ∈ formatterAttrs) :
    getAttribute (stripFormatting el) m = getAttribute el m := by
  simp only [formatterAttrs, List.mem_cons, List.not_mem_nil, or_false, not_or] at h
  obtain ⟨h1, h2, h3, h4, h5, h6, h7⟩ := h
  simp [stripFormatting, formatterAttrs, List.foldl, getAttribute_removeAttribute,
    h1, h2, h3, h4, h5, h6, h7]

/-- After stripping, the element no longer matches the formatted
selector. -/
theorem isFormatted_strip (el : Elem) : isFormatted (stripFormatting el) = false := by
  have h : getAttribute (stripFormatting el) "data-formatted" = none :=
    getAttr_strip_owned el "data-formatted" (by simp [formatterAttrs])
  simp [isFormatted, h]

theorem strip_applyBase (s : Settings) (el : Elem) :
    stripFormatting (applyBaseFormatting s el) = stripFormatting el := by
  simp only [applyBaseFormatting, stripFormatting]
  rw [foldl_removeAttribute_setAttribute _ _ _ _ (by simp [formatterAttrs]),
    foldl_removeAttribute_setAttribute _ _ _ _ (by simp [formatterAttrs]),
    foldl_removeAttribute_setAttribute _ _ _ _ (by simp [formatterAttrs])]

theorem strip_applyYear (env : Env) (s : Settings) (el : Elem) :
    stripFormatting (applyYearFormatting env s el) = stripFormatting el := by
  by_cases h : shouldShowWeekday env s el <;>
    simp only [applyYearFormatting, h, if_true, if_false, Bool.false_eq_true,
      ite_false, ite_true, stripFormatting]
  · exact foldl_removeAttribute_setAttribute _ _ _ _ (by simp [formatterAttrs])
  · exact foldl_removeAttribute_removeAttribute _ _ _ (by simp [formatterAttrs])

theorem strip_applyTime (env : Env) (s : Settings) (el : Elem) :
    stripFormatting (applyTimeFormatting env s el) = stripFormatting el := by
  have hh : "hour" ∈ formatterAttrs := by simp [formatterAttrs]
  have hm : "minute" ∈ formatterAttrs := by simp [formatterAttrs]
  have hsec : "second" ∈ formatterAttrs := by simp [formatterAttrs]
  by_cases ht : shouldShowTime env s
  · by_cases hs : s.includeSeconds <;>
      simp only [applyTimeFormatting, ht, hs, if_true, if_false, Bool.false_eq_true,
        ite_false, ite_true, stripFormatting]
    · rw [foldl_removeAttribute_setAttribute _ _ _ _ hsec,
        foldl_removeAttribute_setAttribute _ _ _ _ hm,
        foldl_removeAttribute_setAttribute _ _ _ _ hh]
    · rw [foldl_removeAttribute_removeAttribute _ _ _ hsec,
        foldl_removeAttribute_setAttribute _ _ _ _ hm,
        foldl_removeAttribute_setAttribute _ _ _ _ hh]
  · simp only [applyTimeFormatting, ht, if_true, if_false, Bool.false_eq_true,
      ite_false, ite_true, stripFormatting]
    rw [foldl_removeAttribute_removeAttribute _ _ _ hsec,
      foldl_removeAttribute_removeAttribute _ _ _ hm,
      foldl_removeAttribute_removeAttribute _ _ _ hh]

/-- Every element processed by `formatSingleElement` carries the
`data-formatted="true"` marker afterwards. -/
theorem isFormatted_formatSingle (env : Env) (s : Settings) (el : Elem) :
    isFormatted (formatSingleElement env s el) = true := by
  simp [isFormatted, getAttr_formatSingle]


/-- C1: the full pass is idempotent — for any fixed settings value and
fixed document content, running `formatRelativeTimes` twice in a row
yields exactly the same attribute state on every timestamp element
after the second run as after the first. -/
theorem claim1_full_pass_idempotent (env : Env) (s : Settings) (doc : Doc) :
    ((formatRelativeTimes env s (formatRelativeTimes env s doc).1).1).length =
        ((formatRelativeTimes env s doc).1).length ∧
    ∀ (i : Nat) (m : String),
      attrState (formatRelativeTimes env s (formatRelativeTimes env s doc).1).1 i m =
        attrState (formatRelativeTimes env s doc).1 i m := by
  cases he : s.enabled with
  | true =>
    by_cases hr : isIgnoredRoute env
    · simp [formatRelativeTimes, he, hr]
    · have hmap : (formatRelativeTimes env s doc).1 =
          doc.map (fun el => formatSingleElement env s el) := by
        simp [formatRelativeTimes, he, hr]
      have hmap2 : (formatRelativeTimes env s (formatRelativeTimes env s doc).1).1 =
          ((formatRelativeTimes env s doc).1).map
            (fun el => formatSingleElement env s el) := by
        simp [formatRelativeTimes, he, hr]
      constructor
      · rw [hmap2, List.length_map]
      · intro i m
        rw [hmap2, hmap]
        simp only [attrState, List.getElem?_map]
        cases doc[i]? with
        | none => rfl
        | some el => simp [formatSingle_idem_attr]
  | false =>
    have h2 : (formatRelativeTimes env s (formatRelativeTimes env s doc).1).1 =
        ((formatRelativeTimes env s doc).1).map
          (fun el => if isFormatted el then stripFormatting el else el) := by
      simp [formatRelativeTimes, he, unformatRelativeTimes]
    have h1 : (formatRelativeTimes env s doc).1 =
        doc.map (fun el => if isFormatted el then stripFormatting el else el) := by
      simp [formatRelativeTimes, he, unformatRelativeTimes]
    have h3 : ((formatRelativeTimes env s doc).1).map
        (fun el => if isFormatted el then stripFormatting el else el) =
        (formatRelativeTimes env s doc).1 := by
      rw [h1, List.map_map]
      apply List.map_congr_left
      intro el _
      by_cases hf : isFormatted el <;> simp [Function.comp, hf, isFormatted_strip]
    rw [h2, h3]
    exact ⟨rfl, fun i m => rfl⟩

/-- C2: a pass with `enabled=false` finds every element carrying the
formatted marker, strips the Formatter-owned attributes from each
(every result element is a sublist of the original, so no attribute is
ever added), and returns the number of elements reverted. -/
theorem claim2_disabled_pass_reverts (env : Env) (s : Settings) (doc : Doc)
    (h : s.enabled = false) :
    (formatRelativeTimes env s doc).2 =
        (doc.filter (fun el => isFormatted el)).length ∧
    (formatRelativeTimes env s doc).1 =
        doc.map (fun el => if isFormatted el then stripFormatting el else el) ∧
    (∀ el ∈ doc, ((if isFormatted el then stripFormatting el else el) : Elem).Sublist el) ∧
    (∀ el ∈ doc, isFormatted el = true →
      ∀ a ∈ formatterAttrs, getAttribute (stripFormatting el) a = none) := by
  refine ⟨by simp [formatRelativeTimes, h, unformatRelativeTimes],
    by simp [formatRelativeTimes, h, unformatRelativeTimes], ?_, ?_⟩
  · intro el _
    by_cases hf : isFormatted el
    · simp only [hf, if_true, stripFormatting]
      exact foldl_removeAttribute_sublist formatterAttrs el
    · simp [hf]
  · intro el _ _ a ha
    exact getAttr_strip_owned el a ha

/-- Witness for C2 at a concrete disabled pass over one formatted and
one plain element: exactly one element is reverted. -/
theorem claim2_witness :
    disabledSettings.enabled = false ∧
    (formatRelativeTimes commitsEnv disabledSettings [formattedElem, plainElem]).2 = 1 :=
  ⟨rfl,
    ((claim2_disabled_pass_reverts commitsEnv disabledSettings
      [formattedElem, plainElem] rfl).1).trans (by decide)⟩

/-- C3 counterexample: on the excluded path `/org/repo/issues` with
`enabled=false`, the pass does mutate the DOM (it reverts the formatted
element) and returns count 1, not 0 — the claim's "regardless of the
settings value" fails because the disabled branch runs before the route
check. -/
theorem claim3_counterexample :
    jsIncludes issuesEnv.pathname "/issues" = true ∧
    (formatRelativeTimes issuesEnv disabledSettings [formattedElem]).2 = 1 ∧
    (formatRelativeTimes issuesEnv disabledSettings [formattedElem]).1 ≠
      [formattedElem] := by decide

/-- C3 amended: on any page whose path contains `/issues` or
`/discussions`, a pass with `enabled=true` performs zero DOM writes
regardless of the other settings and returns a zero count, leaving any
previously formatted elements exactly as they were. -/
theorem claim3_amended_route_skip (env : Env) (s : Settings) (doc : Doc)
    (h1 : s.enabled = true) (h2 : isIgnoredRoute env = true) :
    formatRelativeTimes env s doc = (doc, 0) := by
  simp [formatRelativeTimes, h1, h2]

/-- Witness for the amended C3: a concrete enabled pass on the issues
route leaves a formatted document untouched and returns 0. -/
theorem claim3_amended_witness :
    getDefaultSettings.enabled = true ∧ isIgnoredRoute issuesEnv = true ∧
    formatRelativeTimes issuesEnv getDefaultSettings [formattedElem] =
      ([formattedElem], 0) :=
  ⟨rfl, by decide,
    claim3_amended_route_skip issuesEnv getDefaultSettings [formattedElem] rfl (by decide)⟩

/-- C4: toggling `enabled` to false via a settings-change notification
runs a full pass with the snapshot already replaced (the pass is the
one the handler itself performs, not a debounced one — it is composed
synchronously after `updateSettings`), and that pass strips all the
Formatter-owned attributes (in particular the five presentation
attributes `format-style`, `weekday`, `hour`, `minute`, `second`) from
every previously formatted element. -/
theorem claim4_toggle_off_strips (env : Env) (s : Settings) (p : SettingsPatch)
    (doc : Doc) (h : p.enabled = some false) :
    (handleSettingsChange env s p doc).1.enabled = false ∧
    (handleSettingsChange env s p doc).2 = unformatRelativeTimes doc ∧
    ∀ (i : Nat) (el : Elem), doc[i]? = some el → isFormatted el = true →
      ∀ a ∈ formatterAttrs,
        attrState (handleSettingsChange env s p doc).2.1 i a = none := by
  have hen : (updateSettings s p).enabled = false := by simp [updateSettings, h]
  refine ⟨hen, by simp [handleSettingsChange, formatRelativeTimes, hen], ?_⟩
  intro i el hi hf a ha
  have hd : (handleSettingsChange env s p doc).2.1 =
      doc.map (fun el => if isFormatted el then stripFormatting el else el) := by
    simp [handleSettingsChange, formatRelativeTimes, hen, unformatRelativeTimes]
  rw [hd]
  simp only [attrState, List.getElem?_map, hi, Option.map_some]
  simp [hf, getAttr_strip_owned el a ha]

/-- Witness for C4: a concrete toggle-off over one formatted element
removes its `format-style` attribute. -/
theorem claim4_witness :
    disablePatch.enabled = some false ∧
    attrState (handleSettingsChange commitsEnv getDefaultSettings disablePatch
      [formattedElem]).2.1 0 "format-style" = none :=
  ⟨rfl,
    (claim4_toggle_off_strips commitsEnv getDefaultSettings disablePatch
        [formattedElem] rfl).2.2 0 formattedElem rfl (by decide)
      "format-style" (by decide)⟩

/-- C5: the weekday policy — under `showWeekday=olderYears` an element
whose derived year equals the current year never carries the weekday
marker after the per-element pass and one with a strictly earlier year
always does; under `never` the marker is absent afterwards (removed if
present), under `always` it is always present. -/
theorem claim5_weekday_policy (env : Env) (s : Settings) (el : Elem) :
    (s.showWeekday = "olderYears" →
      (getElementYear env el = some env.currentYear →
        getAttribute (formatSingleElement env s el) "weekday" = none) ∧
      (∀ y, getElementYear env el = some y → y < env.currentYear →
        getAttribute (formatSingleElement env s el) "weekday" = some "narrow")) ∧
    (s.showWeekday = "never" →
      getAttribute (formatSingleElement env s el) "weekday" = none) ∧
    (s.showWeekday = "always" →
      getAttribute (formatSingleElement env s el) "weekday" = some "narrow") := by
  refine ⟨fun h => ⟨fun hy => ?_, fun y hy hlt => ?_⟩, fun h => ?_, fun h => ?_⟩
  · simp [getAttr_formatSingle, shouldShowWeekday, weekdayPolicy, jsOrDefault, h,
      hy, ltJS]
  · simp [getAttr_formatSingle, shouldShowWeekday, weekdayPolicy, jsOrDefault, h,
      hy, ltJS, hlt]
  · simp [getAttr_formatSingle, shouldShowWeekday, weekdayPolicy, jsOrDefault, h]
  · simp [getAttr_formatSingle, shouldShowWeekday, weekdayPolicy, jsOrDefault, h]

/-- Witness for C5: a last-year element on a non-actions page under the
default `olderYears` policy receives the weekday marker. -/
theorem claim5_witness :
    getDefaultSettings.showWeekday = "olderYears" ∧
    getElementYear commitsEnv plainElem = some commitsEnv.currentYear ∧
    getAttribute (formatSingleElement commitsEnv getDefaultSettings plainElem)
      "weekday" = none :=
  ⟨rfl, by decide,
    ((claim5_weekday_policy commitsEnv getDefaultSettings plainElem).1 rfl).1 (by decide)⟩

/-- C6: under `showTime=actionsOnly` the per-element pass leaves hour
and minute markers exactly when the page is a workflow/actions page,
with the seconds marker present iff `includeSeconds`; concretely, on
path `/org/repo/actions/runs/1` with default settings and a this-year
instant the element ends with style `short`, no weekday marker, hour
and minute present, and no seconds. -/
theorem claim6_actions_time (env : Env) (s : Settings) (el : Elem)
    (h : s.showTime = "actionsOnly") :
    (isActionPage env = true →
      getAttribute (formatSingleElement env s el) "hour" = some "2-digit" ∧
      getAttribute (formatSingleElement env s el) "minute" = some "2-digit" ∧
      (s.includeSeconds = true →
        getAttribute (formatSingleElement env s el) "second" = some "2-digit") ∧
      (s.includeSeconds = false →
        getAttribute (formatSingleElement env s el) "second" = none)) ∧
    (isActionPage env = false →
      getAttribute (formatSingleElement env s el) "hour" = none ∧
      getAttribute (formatSingleElement env s el) "minute" = none ∧
      getAttribute (formatSingleElement env s el) "second" = none) ∧
    (getAttribute (formatSingleElement actionsEnv getDefaultSettings plainElem)
        "format-style" = some "short" ∧
      getAttribute (formatSingleElement actionsEnv getDefaultSettings plainElem)
        "weekday" = none ∧
      getAttribute (formatSingleElement actionsEnv getDefaultSettings plainElem)
        "hour" = some "2-digit" ∧
      getAttribute (formatSingleElement actionsEnv getDefaultSettings plainElem)
        "minute" = some "2-digit" ∧
      getAttribute (formatSingleElement actionsEnv getDefaultSettings plainElem)
        "second" = none) := by
  refine ⟨fun ha => ?_, fun ha => ?_, by decide⟩ <;>
    cases hs : s.includeSeconds <;>
    simp [getAttr_formatSingle, shouldShowTime, timePolicy, jsOrDefault, h, ha, hs]

/-- Witness for C6: the actions-page route predicate holds for the
scenario path and the hour marker is applied there. -/
theorem claim6_witness :
    getDefaultSettings.showTime = "actionsOnly" ∧ isActionPage actionsEnv = true ∧
    getAttribute (formatSingleElement actionsEnv getDefaultSettings formattedElem)
      "hour" = some "2-digit" :=
  ⟨rfl, by decide,
    (((claim6_actions_time actionsEnv getDefaultSettings formattedElem rfl).1)
      (by decide)).1⟩

/-- A `clampEnum` result always lies in the allowed set provided the
default does. -/
theorem clampEnum_contains (v : JSVal) (allowed : List String) (dflt : String)
    (h : allowed.contains dflt = true) :
    allowed.contains (clampEnum v allowed dflt) = true := by
  cases v with
  | str t =>
    simp only [clampEnum]
    split_ifs with hs
    · exact hs
    · exact h
  | boolean b => exact h
  | num n => exact h
  | null => exact h
  | undef => exact h

/-- C7: `coerceSettings` is total — for every input shape (`null`, the
empty object, any object) it returns a fully valid settings value; it
equals the defaults on `null` and on `{}`; an invalid `dateStyle` enum
value falls back to the per-field default `"short"`; and the remaining
fields never depend on the `dateStyle` input, so one bad field never
rejects the rest of the object. -/
theorem claim7_coerce_total :
    (∀ q : Option PartialSettings, validSettings (coerceSettings q) = true) ∧
    coerceSettings none = getDefaultSettings ∧
    coerceSettings (some emptyPartial) = getDefaultSettings ∧
    (∀ (q : PartialSettings) (v : JSVal), q.dateStyle = some v →
      (∀ str : String, v = JSVal.str str → dateStyles.contains str = false) →
      (coerceSettings (some q)).dateStyle = "short") ∧
    (∀ (q : PartialSettings) (v : Option JSVal),
      (coerceSettings (some { q with dateStyle := v })).enabled =
          (coerceSettings (some q)).enabled ∧
      (coerceSettings (some { q with dateStyle := v })).debug =
          (coerceSettings (some q)).debug ∧
      (coerceSettings (some { q with dateStyle := v })).showWeekday =
          (coerceSettings (some q)).showWeekday ∧
      (coerceSettings (some { q with dateStyle := v })).showTime =
          (coerceSettings (some q)).showTime ∧
      (coerceSettings (some { q with dateStyle := v })).includeSeconds =
          (coerceSettings (some q)).includeSeconds) := by
  refine ⟨fun q => ?_, by decide, by decide, fun q v hv hbad => ?_,
    fun q v => ⟨rfl, rfl, rfl, rfl, rfl⟩⟩
  · simp only [validSettings, coerceSettings, Bool.and_eq_true]
    refine ⟨⟨?_, ?_⟩, ?_⟩ <;> apply clampEnum_contains <;> decide
  · simp only [coerceSettings, hv, Option.getD_some]
    cases v with
    | str t =>
      have hb : dateStyles.contains t = false := hbad t rfl
      simp only [clampEnum]
      rw [if_neg (show ¬dateStyles.contains t = true from by
        rw [hb]; exact Bool.false_ne_true)]
      rfl
    | boolean b => rfl
    | num n => rfl
    | null => rfl
    | undef => rfl

/-- Witness for C7: coercing an object whose `dateStyle` is an invalid
enum string yields the default `"short"`. -/
theorem claim7_witness :
    (coerceSettings (some ⟨none, none, some (JSVal.str "bogus"), none, none, none⟩)).dateStyle
      = "short" :=
  claim7_coerce_total.2.2.2.1 ⟨none, none, some (JSVal.str "bogus"), none, none, none⟩
    (JSVal.str "bogus") rfl
    (fun str hs => by injection hs with h; subst h; decide)

/-- C8: with `enabled=true` on a non-excluded route, the pass maps the
per-element formatter over every timestamp element (not filtered by
prior-formatted state), returns the count of all elements processed,
and leaves every element carrying the formatted marker. -/
theorem claim8_enabled_pass (env : Env) (s : Settings) (doc : Doc)
    (h1 : s.enabled = true) (h2 : isIgnoredRoute env = false) :
    (formatRelativeTimes env s doc).1 =
        doc.map (fun el => formatSingleElement env s el) ∧
    (formatRelativeTimes env s doc).2 = doc.length ∧
    ∀ el ∈ (formatRelativeTimes env s doc).1, isFormatted el = true := by
  have hd : (formatRelativeTimes env s doc).1 =
      doc.map (fun el => formatSingleElement env s el) := by
    simp [formatRelativeTimes, h1, h2]
  refine ⟨hd, by simp [formatRelativeTimes, h1, h2], ?_⟩
  intro el hel
  rw [hd] at hel
  obtain ⟨el0, _, rfl⟩ := List.mem_map.mp hel
  exact isFormatted_formatSingle env s el0

/-- Witness for C8: a concrete enabled pass over one already formatted
and one plain element processes both and marks both. -/
theorem claim8_witness :
    getDefaultSettings.enabled = true ∧ isIgnoredRoute commitsEnv = false ∧
    (formatRelativeTimes commitsEnv getDefaultSettings
        [formattedElem, plainElem]).2 = 2 :=
  ⟨rfl, by decide,
    (claim8_enabled_pass commitsEnv getDefaultSettings [formattedElem, plainElem]
        rfl (by decide)).2.1.trans (by decide)⟩

/-- C9: round-trip reversibility — starting from an element carrying
none of the Formatter-owned attributes, formatting it and then
stripping the Formatter-owned attributes restores exactly the original
attribute list. -/
theorem claim9_roundtrip (env : Env) (s : Settings) (el : Elem)
    (h : ∀ a ∈ formatterAttrs, getAttribute el a = none) :
    stripFormatting (formatSingleElement env s el) = el := by
  have h1 : stripFormatting (formatSingleElement env s el) = stripFormatting el := by
    rw [formatSingleElement, strip_applyTime, strip_applyYear, strip_applyBase]
  rw [h1]
  simp only [stripFormatting]
  exact foldl_removeAttribute_of_absent formatterAttrs el h

/-- Witness for C9: formatting then reverting a concrete plain element
returns it unchanged. -/
theorem claim9_witness :
    (∀ a ∈ formatterAttrs, getAttribute plainElem a = none) ∧
    stripFormatting (formatSingleElement actionsEnv getDefaultSettings plainElem) =
      plainElem :=
  ⟨by decide, claim9_roundtrip actionsEnv getDefaultSettings plainElem (by decide)⟩

/-- C10 counterexample: for an element with an absent `datetime`
attribute, the derived year is not NaN — `new Date(null)` is the epoch
(year 1970 in UTC), which is less than the current year, so under the
default `showWeekday=olderYears` policy the element does receive the
weekday marker, contradicting the claim. -/
theorem claim10_counterexample :
    getDefaultSettings.showWeekday = "olderYears" ∧
    getAttribute noDatetimeElem "datetime" = none ∧
    getElementYear commitsEnv noDatetimeElem = some 1970 ∧
    getAttribute (formatSingleElement commitsEnv getDefaultSettings noDatetimeElem)
      "weekday" = some "narrow" := by decide

/-- C10 amended: formatting a single element is total for any
`datetime` state; when the attribute is present but unparseable the
derived year is NaN and, NaN being less than nothing, the element never
receives the weekday marker under `showWeekday=olderYears`; when the
attribute is absent the derived year is the epoch year (1970), which is
less than the current year, so the weekday marker is added. -/
theorem claim10_amended_nan_and_epoch (env : Env) (s : Settings) (el : Elem)
    (h : s.showWeekday = "olderYears") :
    (∀ dt, getAttribute el "datetime" = some dt → env.parseYear dt = none →
      getAttribute (formatSingleElement env s el) "weekday" = none) ∧
    (getAttribute el "datetime" = none → env.nullYear < env.currentYear →
      getAttribute (formatSingleElement env s el) "weekday" = some "narrow") := by
  constructor
  · intro dt hdt hnan
    simp [getAttr_formatSingle, shouldShowWeekday, weekdayPolicy, jsOrDefault, h,
      getElementYear, hdt, hnan, ltJS]
  · intro habs hlt
    simp [getAttr_formatSingle, shouldShowWeekday, weekdayPolicy, jsOrDefault, h,
      getElementYear, habs, ltJS, hlt]

/-- Witness for the amended C10: a concrete element with an unparseable
`datetime` gets no weekday marker under the default policy. -/
theorem claim10_amended_witness :
    getDefaultSettings.showWeekday = "olderYears" ∧
    getAttribute (formatSingleElement commitsEnv getDefaultSettings
      [("datetime", "not-a-date")]) "weekday" = none :=
  ⟨rfl,
    (claim10_amended_nan_and_epoch commitsEnv getDefaultSettings
        [("datetime", "not-a-date")] rfl).1 "not-a-date" rfl rfl⟩

end AbsoluteTime
